import Mathlib

/-!
Verification of the TRS-ODE integrator core (`alan_core/src/controller/trs_ode.rs`),
the snapshot codec (`alan_core/src/snapshot/mod.rs`) and the ψ-trajectory archive
recorder/reader pair (`client/.../psi_recorder.rs`, `ide_frontend/.../psi_reader.rs`).

Modelling conventions:
* `f64` values are modelled as exact rationals (`ℚ`).  All arithmetic the embedded
  code performs is `+`, `-`, `*` and division by constants, so the only deviation
  from IEEE semantics is rounding/overflow; every concrete fact proved below is
  robust under any rounding (the divergences are exact algebraic ones).
* Where non-finite values (NaN/±∞) matter, values live in `Option ℚ` with `none`
  standing for a non-finite double (`TrsOdeExt` below).
* Machine integers (`i16`, `i32`, `u32`, ...) are `ℤ`/`ℕ` with explicit wrapping
  (`% 2^w`) at the points where the source wraps.
* Byte buffers are `List ℕ` (each element a byte value).  A Rust indexing/slicing
  operation that can panic is modelled by an error value distinct from the
  source's own error enum (`.panicked` constructors below), so "returns an error"
  and "panics" stay distinguishable.
* Error enums carrying `String` payloads in the source are modelled without the
  message text; distinct failure kinds keep distinct constructors.
-/

set_option maxRecDepth 100000

/-- Decidable equality for `Except`, so that concrete runs of the embedded
fallible code can be checked by `decide`. -/
instance {ε α : Type} [DecidableEq ε] [DecidableEq α] : DecidableEq (Except ε α) :=
  fun x y =>
    match x, y with
    | .error a, .error b =>
      if h : a = b then .isTrue (by rw [h]) else .isFalse (by intro hh; cases hh; exact h rfl)
    | .ok a, .ok b =>
      if h : a = b then .isTrue (by rw [h]) else .isFalse (by intro hh; cases hh; exact h rfl)
    | .error _, .ok _ => .isFalse (by intro hh; cases hh)
    | .ok _, .error _ => .isFalse (by intro hh; cases hh)

/-! ### Byte-level helpers (little-endian fields, LEB128, CRC32) -/

/-- Two's-complement cast of an integer to `i16`, i.e. Rust's `as i16` /
`wrapping_add` wrap into `[-32768, 32767]`. -/
def i16Cast (z : ℤ) : ℤ := (z + 32768) % 65536 - 32768

/-- Saturating `i16` addition (Rust `i16::saturating_add`). -/
def i16SatAdd (a b : ℤ) : ℤ := max (-32768) (min 32767 (a + b))

/-- Little-endian byte pair of an `i16` value (Rust `i16::to_le_bytes`). -/
def i16ToLeBytes (z : ℤ) : List ℕ :=
  [(z % 65536).toNat % 256, (z % 65536).toNat / 256]

/-- Rust `i16::from_le_bytes`. -/
def leBytesToI16 (b0 b1 : ℕ) : ℤ := i16Cast (b0 + 256 * b1)

/-- Little-endian 4-byte encoding of a `u32` (Rust `u32::to_le_bytes`). -/
def le32 (n : ℕ) : List ℕ :=
  [n % 256, n / 256 % 256, n / 65536 % 256, n / 16777216 % 256]

/-- Little-endian 8-byte encoding of a `u64` (Rust `u64::to_le_bytes`). -/
def le64 (n : ℕ) : List ℕ :=
  [n % 256, n / 256 % 256, n / 65536 % 256, n / 16777216 % 256,
   n / 4294967296 % 256, n / 1099511627776 % 256,
   n / 281474976710656 % 256, n / 72057594037927936 % 256]

/-- One bit-step of the reflected CRC-32 (IEEE polynomial `0xEDB88320`),
as computed by the `crc32fast::Hasher` used by the recorder. -/
def crcStep (c : ℕ) : ℕ :=
  if c % 2 = 1 then (c / 2) ^^^ 0xEDB88320 else c / 2

/-- Fold one input byte into the CRC register. -/
def crcByte (c b : ℕ) : ℕ :=
  (List.range 8).foldl (fun acc _ => crcStep acc) (c ^^^ b)

/-- CRC-32/IEEE of a byte sequence (the checksum `crc32fast` produces). -/
def crc32 (data : List ℕ) : ℕ :=
  (data.foldl crcByte 0xFFFFFFFF) ^^^ 0xFFFFFFFF

/-- Loop body of `write_leb128`, with structural fuel so that concrete values
compute by kernel reduction; `leb128` below supplies enough fuel for any input
(each iteration divides the value by 128). -/
def leb128Aux : ℕ → ℕ → List ℕ
  | 0, _ => []
  | fuel + 1, n =>
    if n / 128 = 0 then [n % 128]
    else (n % 128 + 128) :: leb128Aux fuel (n / 128)

/-- Unsigned LEB128 encoding (`PsiArchiveWriter::write_leb128`): little-endian
groups of 7 bits, continuation bit `0x80`. -/
def leb128 (n : ℕ) : List ℕ := leb128Aux (n + 1) n

/-! ### Phase-delta codec
`DeltaEncoder::encode_phase_delta` (psi_recorder.rs:260-274) and
`DeltaDecoder::apply_phase_delta` (psi_reader.rs:239-242). -/

/-- `encode_phase_delta(prev, curr)`: `raw = curr as i32 - prev as i32`, wrap by
`±65536` when outside `(-32768, 32767]`, then `as i16`. -/
def encodePhaseDelta (prev curr : ℤ) : ℤ :=
  i16Cast
    (if curr - prev > 32767 then curr - prev - 65536
     else if curr - prev ≤ -32768 then curr - prev + 65536
     else curr - prev)

/-- `apply_phase_delta(value, delta)`: `value.wrapping_add(delta)` in `i16`. -/
def applyPhaseDelta (value delta : ℤ) : ℤ := i16Cast (value + delta)

/-! ### TRS-ODE controller, rational model (trs_ode.rs)

State is `List ℚ` laid out `[q; p]`.  The dynamics callback writes a derivative
buffer of the same length; it is modelled as a function returning that buffer
(reads beyond its length see the `0.0` the buffer was initialised with).
Over `ℚ` every value is finite, so the `is_nan || is_infinite` check of
`step_velocity_verlet` can never fire; its behaviour on non-finite values is
modelled separately in the `TrsOdeExt` section.  The `stats` and `prev_state`
bookkeeping fields do not affect `(t, S)` and are not modelled. -/

namespace TrsOde

/-- Error enum `TrsError` (payload strings dropped). -/
inductive TrsError where
  | numericalInstability : TrsError
  | dimensionMismatch : TrsError
  | invalidParameter : TrsError
deriving DecidableEq

/-- The dynamics callback `F: Fn(f64, &S, &mut [f64])`. -/
def Force : Type := ℚ → List ℚ → List ℚ

/-- `step_velocity_verlet` (trs_ode.rs:254-313): force once at the pre-step
state, half drift written into `q`, full kick into `p`, then the final position
update `state[pos] = half_step[pos] + dt * state[vel]` — note the source uses
the original position (`half_step`, saved before the first drift) and the full
`dt` here.  Velocity slots are untouched by the drifts, so reading `s` for the
first drift equals reading the buffer being mutated. -/
def stepVelocityVerlet (force : Force) (dt t : ℚ) (s : List ℚ) : ℚ × List ℚ :=
  let d := s.length / 2
  let deriv := force t s
  let s1 := s.mapIdx fun i x => if i < d then x + dt * (1/2) * s.getD (i + d) 0 else x
  let s2 := s1.mapIdx fun i x => if d ≤ i ∧ i < d + d then x + dt * deriv.getD i 0 else x
  let s3 := s2.mapIdx fun i x => if i < d then s.getD i 0 + dt * s2.getD (i + d) 0 else x
  (t + dt, s3)

/-- `step_symplectic` (trs_ode.rs:226-248): validates `dt` then dispatches to
velocity Verlet (the `Yoshida4` variant is behind an off-by-default feature
flag).  Over `ℚ`, `!dt.is_finite()` is always false. -/
def stepSymplectic (force : Force) (dt t : ℚ) (s : List ℚ) :
    Except TrsError (ℚ × List ℚ) :=
  if dt ≤ 0 ∨ 1 ≤ dt then .error .invalidParameter
  else .ok (stepVelocityVerlet force dt t s)

/-- `reverse` (trs_ode.rs:377-394): negate `t`, reject odd-length states, negate
the momentum half `s[dim/2 ..]`.  (The source negates `t` before the parity
check; in this `Except`-valued model the mutated `t` on the error path is not
observable, and no claim below concerns it.) -/
def reverse (t : ℚ) (s : List ℚ) : Except TrsError (ℚ × List ℚ) :=
  if s.length % 2 ≠ 0 then .error .dimensionMismatch
  else .ok (-t, s.mapIdx fun i x => if s.length / 2 ≤ i then -x else x)

/-- `trs_loss` (trs_ode.rs:409-446).  `none` models the `f64::INFINITY` returned
on a length mismatch or odd dimension; the position loop runs over `0..dim/2`,
the momentum loop over `dim/2..dim`.  The interior-mutability stats update does
not affect the returned value and is not modelled. -/
def trsLoss (lambdaTrs : ℚ) (orig rolled : List ℚ) : Option ℚ :=
  let dim := orig.length
  if dim ≠ rolled.length ∨ dim % 2 ≠ 0 then none
  else
    let half := dim / 2
    let posError := ∑ i ∈ Finset.range half,
      (orig.getD i 0 - rolled.getD i 0) * (orig.getD i 0 - rolled.getD i 0)
    let momError := ∑ i ∈ Finset.Ico half dim,
      (orig.getD i 0 + rolled.getD i 0) * (orig.getD i 0 + rolled.getD i 0)
    some (posError + lambdaTrs * momError)

/-- The spec's TRS loss formula, written from the spec's words:
`L(S₀,S_f) = Σᵢ (q₀ᵢ − q_fᵢ)² + λ · Σᵢ (p₀ᵢ + p_fᵢ)²` with `q` the first half
and `p` the second half of the state. -/
def specTrsLoss (lambdaTrs : ℚ) (orig rolled : List ℚ) : ℚ :=
  let half := orig.length / 2
  (List.zipWith (fun a b => (a - b) * (a - b)) (orig.take half) (rolled.take half)).sum
  + lambdaTrs *
    (List.zipWith (fun a b => (a + b) * (a + b)) (orig.drop half) (rolled.drop half)).sum

/-- The step loop inside `integrate`. -/
def integrateGo (force : Force) (dt : ℚ) :
    ℕ → ℚ → List ℚ → Except TrsError (ℚ × List ℚ)
  | 0, t, s => .ok (t, s)
  | n + 1, t, s =>
    match stepSymplectic force dt t s with
    | .error e => .error e
    | .ok (t', s') => integrateGo force dt n t' s'

/-- `integrate` (trs_ode.rs:459-470): reject more than `10⁹` steps, then step. -/
def integrate (force : Force) (dt t : ℚ) (s : List ℚ) (steps : ℕ) :
    Except TrsError (ℚ × List ℚ) :=
  if steps > 1000000000 then .error .invalidParameter
  else integrateGo force dt steps t s

/-- `integrate_backward` (trs_ode.rs:486-503): reverse, integrate, reverse. -/
def integrateBackward (force : Force) (dt t : ℚ) (s : List ℚ) (steps : ℕ) :
    Except TrsError (ℚ × List ℚ) :=
  if steps > 1000000000 then .error .invalidParameter
  else
    match reverse t s with
    | .error e => .error e
    | .ok (t1, s1) =>
      match integrate force dt t1 s1 steps with
      | .error e => .error e
      | .ok (t2, s2) => reverse t2 s2

/-- `integrate_to` (trs_ode.rs:561-592).  The target is `Option ℚ` so that a
non-finite `target_t` is representable as `none`: for NaN/±∞ the comparison
`(target_t - t).abs() < 1e-10` is false and `!target_t.is_finite()` then
triggers the `InvalidParameter` return, exactly as modelled here.  The literal
`1e-10` is modelled as `1/10^10` and `.ceil() as usize` as `Int.toNat ∘ ⌈·⌉`
(the `as usize` cast saturates below at `0`).  After a successful integration
the source snaps `*t = target_t`. -/
def integrateTo (force : Force) (dt t : ℚ) (s : List ℚ) (target : Option ℚ) :
    Except TrsError (ℚ × List ℚ) :=
  match target with
  | none => .error .invalidParameter
  | some tgt =>
    if |tgt - t| < 1 / 10000000000 then .ok (t, s)
    else
      let forward := t < tgt
      let steps := (⌈|tgt - t| / dt⌉).toNat
      if steps > 1000000000 then .error .invalidParameter
      else
        match (if forward then integrate force dt t s steps
               else integrateBackward force dt t s steps) with
        | .error e => .error e
        | .ok (_, s') => .ok (tgt, s')

end TrsOde

/-! ### Small evaluation sanity checks (not claim theorems) -/

example : encodePhaseDelta 32000 (-32536) = 1000 := by decide

example : applyPhaseDelta 32000 1000 = -32536 := by decide

/-- CRC-32 reference check value for "123456789". -/
example : crc32 [0x31, 0x32, 0x33, 0x34, 0x35, 0x36, 0x37, 0x38, 0x39] = 0xCBF43926 := by
  decide

example : leb128 0 = [0] ∧ leb128 6 = [6] ∧ leb128 300 = [0xAC, 0x02] := by decide

/-! ### Claim C1 -/

/-- C1: the final position update of `step_velocity_verlet` is
`q ← q₀ + dt·p₁`, not the drift-kick-drift `q ← q_half + (dt/2)·p₁` the spec
states.  At `dt = 1/2`, `S = [0, 1]`, force `(0, 1)` the step produces
`q = 3/4`, while the claimed `q₀ + (dt/2)·(p₀ + p₁)` with
`p₁ = p₀ + dt·a[1]` is `5/8`. -/
theorem C1_step_velocity_verlet_final_drift_bug :
    TrsOde.stepSymplectic (fun _ _ => [0, 1]) (1/2) 0 [0, 1]
      = .ok (1/2, [3/4, 3/2])
    ∧ ¬ ((3 : ℚ)/4 = 0 + (1/2)/2 * (1 + (1 + (1/2) * 1))) := by
  constructor
  · simp [TrsOde.stepSymplectic, TrsOde.stepVelocityVerlet]
    norm_num
  · norm_num

/-! ### Claim C3 -/

/-- C3: for `i16` phase samples `a, b`, decoding the wrap-aware delta recovers
`b` exactly: `apply_phase_delta(a, encode_phase_delta(a, b)) = b`. -/
theorem C3_phase_delta_roundtrip (a b : ℤ)
    (ha₁ : -32768 ≤ a) (ha₂ : a ≤ 32767) (hb₁ : -32768 ≤ b) (hb₂ : b ≤ 32767) :
    applyPhaseDelta a (encodePhaseDelta a b) = b := by
  unfold applyPhaseDelta encodePhaseDelta i16Cast
  split <;> [skip; split] <;> omega

/-- Witness for C3 at a delta crossing the `+2¹⁵` boundary
(`32000 → -32536`, raw wrap case of spec scenario E4). -/
theorem C3_phase_delta_roundtrip_witness :
    applyPhaseDelta 32000 (encodePhaseDelta 32000 (-32536)) = -32536 :=
  C3_phase_delta_roundtrip 32000 (-32536)
    (by decide) (by decide) (by decide) (by decide)

/-! ### TRS-ODE controller over extended doubles (non-finite values)

`Ext = Option ℚ` models an `f64` that is either finite (`some q`, exact) or
non-finite (`none`, i.e. NaN or ±∞).  Addition and scaling propagate
non-finiteness, matching IEEE: any operation with a NaN/±∞ operand used below
yields a non-finite result (finite overflow is ignored, as everywhere in this
model).  This model is used to settle what a failing step leaves behind. -/

namespace TrsOdeExt

open TrsOde (TrsError)

/-- An `f64` value: `some q` finite, `none` non-finite (NaN or ±∞). -/
def Ext : Type := Option ℚ
deriving DecidableEq

/-- Extended addition. -/
def eadd : Ext → Ext → Ext
  | some a, some b => some (a + b)
  | _, _ => none

/-- Scaling by a finite constant (`c` is always a finite parameter such as
`dt` below; `c * NaN = NaN` and, for `c = 0`, `0 * ±∞ = NaN`, so `none ↦ none`
is exact). -/
def smulE (c : ℚ) : Ext → Ext
  | some x => some (c * x)
  | none => none

/-- Whether a value is non-finite (`is_nan() || is_infinite()`). -/
def nonFinite (x : Ext) : Bool :=
  match x with
  | none => true
  | some _ => false

/-- `step_velocity_verlet` (trs_ode.rs:254-313) over extended doubles,
including step 5, the stability check: the state buffer is mutated in place by
steps 2-4 and only then checked, so on `NumericalInstability` the caller's
buffer holds the partially-updated values.  Returns (result, t, state) exactly
as observed by the caller through the `&mut` references. -/
def stepVelocityVerletExt (force : ℚ → List Ext → List Ext) (dt t : ℚ)
    (s : List Ext) : Except TrsError Unit × ℚ × List Ext :=
  let d := s.length / 2
  let deriv := force t s
  let s1 := s.mapIdx fun i x => if i < d then eadd x (smulE (dt * (1/2)) (s.getD (i + d) (some 0))) else x
  let s2 := s1.mapIdx fun i x => if d ≤ i ∧ i < d + d then eadd x (smulE dt (deriv.getD i (some 0))) else x
  let s3 := s2.mapIdx fun i x => if i < d then eadd (s.getD i (some 0)) (smulE dt (s2.getD (i + d) (some 0))) else x
  if s3.any nonFinite then (.error .numericalInstability, t, s3)
  else (.ok (), t + dt, s3)

/-- `step_symplectic` (trs_ode.rs:226-248) over extended doubles. -/
def stepSymplecticExt (force : ℚ → List Ext → List Ext) (dt t : ℚ)
    (s : List Ext) : Except TrsError Unit × ℚ × List Ext :=
  if dt ≤ 0 ∨ 1 ≤ dt then (.error .invalidParameter, t, s)
  else stepVelocityVerletExt force dt t s

end TrsOdeExt

/-! ### Claim C2 -/

/-- C2 counterexample: a step that fails with `NumericalInstability` does NOT
leave `S` unchanged.  With `dt = 1/2`, `S = [0, 1]` and a force whose momentum
derivative is non-finite, the aborted step leaves the state buffer at
`[none, none]` (two non-finite components), not at the pre-step `[0, 1]`;
only `t` is unchanged. -/
theorem C2_instability_counterexample :
    TrsOdeExt.stepSymplecticExt (fun _ _ => [some 0, none]) (1/2) 0 [some 0, some 1]
      = (.error .numericalInstability, 0, [none, none])
    ∧ ([none, none] : List TrsOdeExt.Ext) ≠ [some 0, some 1] := by
  constructor
  · simp [TrsOdeExt.stepSymplecticExt, TrsOdeExt.stepVelocityVerletExt,
      TrsOdeExt.eadd, TrsOdeExt.smulE, TrsOdeExt.nonFinite]
    norm_num
  · simp

/-- C2 as amended: when a single step fails (with `NumericalInstability` or any
other error), the time `t` observed by the caller is unchanged; the state
buffer is not restored (see the counterexample). -/
theorem C2_step_error_time_unchanged
    (force : ℚ → List TrsOdeExt.Ext → List TrsOdeExt.Ext) (dt t : ℚ)
    (s : List TrsOdeExt.Ext) (e : TrsOde.TrsError) (t' : ℚ)
    (s' : List TrsOdeExt.Ext)
    (h : TrsOdeExt.stepSymplecticExt force dt t s = (.error e, t', s')) :
    t' = t := by
  unfold TrsOdeExt.stepSymplecticExt TrsOdeExt.stepVelocityVerletExt at h
  split at h
  · simpa using congrArg (fun p => p.2.1) h |>.symm
  · dsimp only at h
    split at h
    · simpa using congrArg (fun p => p.2.1) h |>.symm
    · simpa using congrArg (fun p => p.1) h

/-- Witness for C2's amended claim at the counterexample input. -/
theorem C2_step_error_time_unchanged_witness : (0 : ℚ) = 0 :=
  C2_step_error_time_unchanged (fun _ _ => [some 0, none]) (1/2) 0
    [some 0, some 1] .numericalInstability 0 [none, none]
    (C2_instability_counterexample.1)

/-! ### Claim C9 -/

/-- An indexed-loop accumulation over two buffers equals the sum over the
zipped prefixes, when the index range is within both lengths. -/
theorem sum_range_getD_zipWith (f : ℚ → ℚ → ℚ) :
    ∀ (n : ℕ) (a b : List ℚ), n ≤ a.length → n ≤ b.length →
      ∑ i ∈ Finset.range n, f (a.getD i 0) (b.getD i 0)
        = (List.zipWith f (a.take n) (b.take n)).sum := by
  intro n
  induction n with
  | zero => simp
  | succ m ih =>
    intro a b ha hb
    cases a with
    | nil => simp at ha
    | cons x a' =>
      cases b with
      | nil => simp at hb
      | cons y b' =>
        rw [Finset.sum_range_succ']
        simp only [List.getD_cons_succ, List.getD_cons_zero]
        rw [ih a' b' (by simpa using ha) (by simpa using hb)]
        simp [List.take_succ_cons, add_comm]

/-- `getD` through `drop`. -/
theorem getD_drop_add (l : List ℚ) (m i : ℕ) :
    (l.drop m).getD i 0 = l.getD (m + i) 0 := by
  simp [List.getD_eq_getElem?_getD, List.getElem?_drop]

/-- C9: `trs_loss` computes exactly the spec's weighted quadratic loss whenever
the two states have equal even length, and returns `+∞` (modelled `none`)
otherwise. -/
theorem C9_trs_loss_spec (lam : ℚ) (orig rolled : List ℚ) :
    TrsOde.trsLoss lam orig rolled =
      if orig.length = rolled.length ∧ orig.length % 2 = 0
      then some (TrsOde.specTrsLoss lam orig rolled) else none := by
  simp only [TrsOde.trsLoss, TrsOde.specTrsLoss]
  by_cases h : orig.length = rolled.length ∧ orig.length % 2 = 0
  · obtain ⟨h1, h2⟩ := h
    rw [if_neg (by omega), if_pos ⟨h1, h2⟩]
    have hpos :
        ∑ i ∈ Finset.range (orig.length / 2),
            (orig.getD i 0 - rolled.getD i 0) * (orig.getD i 0 - rolled.getD i 0)
          = (List.zipWith (fun a b => (a - b) * (a - b))
              (orig.take (orig.length / 2)) (rolled.take (orig.length / 2))).sum :=
      sum_range_getD_zipWith (fun a b => (a - b) * (a - b)) (orig.length / 2)
        orig rolled (by omega) (by omega)
    have hmom :
        ∑ i ∈ Finset.Ico (orig.length / 2) orig.length,
            (orig.getD i 0 + rolled.getD i 0) * (orig.getD i 0 + rolled.getD i 0)
          = (List.zipWith (fun a b => (a + b) * (a + b))
              (orig.drop (orig.length / 2)) (rolled.drop (orig.length / 2))).sum := by
      rw [Finset.sum_Ico_eq_sum_range]
      have := sum_range_getD_zipWith (fun a b => (a + b) * (a + b))
        (orig.length - orig.length / 2)
        (orig.drop (orig.length / 2)) (rolled.drop (orig.length / 2))
        (by simp) (by simp; omega)
      rw [List.take_of_length_le (by simp), List.take_of_length_le (by simp; omega)] at this
      rw [← this]
      refine Finset.sum_congr rfl fun i _ => ?_
      rw [getD_drop_add, getD_drop_add]
    rw [hpos, hmom]
  · rw [if_pos (by omega), if_neg h]

/-! ### Claim C10 -/

/-- `getD` through `mapIdx`, for index maps fixing the default `0`. -/
theorem getD_mapIdx_zero (f : ℕ → ℚ → ℚ) (l : List ℚ) (i : ℕ) (hf : f i 0 = 0) :
    (l.mapIdx f).getD i 0 = f i (l.getD i 0) := by
  by_cases h : i < l.length
  · have h' : i < (l.mapIdx f).length := by simpa [List.length_mapIdx] using h
    rw [List.getD_eq_getElem?_getD, List.getD_eq_getElem?_getD,
      List.getElem?_eq_getElem h', List.getElem?_eq_getElem h]
    simp only [Option.getD_some]
    have hg := List.get_mapIdx l f i h h'
    rwa [List.get_eq_getElem, List.get_eq_getElem] at hg
  · have hl : l.length ≤ i := le_of_not_lt h
    rw [List.getD_eq_getElem?_getD, List.getD_eq_getElem?_getD,
      List.getElem?_eq_none (by simpa [List.length_mapIdx] using hl),
      List.getElem?_eq_none hl]
    simp [hf]

/-- `getElem` through `mapIdx`. -/
theorem getElem_mapIdx_eq (f : ℕ → ℚ → ℚ) (l : List ℚ) (i : ℕ)
    (h : i < l.length) (h' : i < (l.mapIdx f).length) :
    (l.mapIdx f)[i] = f i l[i] := by
  have hg := List.get_mapIdx l f i h h'
  rwa [List.get_eq_getElem, List.get_eq_getElem] at hg

/-- C10: on an even-length state, `reverse` succeeds, leaves the position half
unchanged, negates `t` and the momentum half only, and applying it twice
restores `(t, S)` exactly. -/
theorem C10_reverse_involution (t : ℚ) (s : List ℚ) (h : s.length % 2 = 0) :
    ∃ s', TrsOde.reverse t s = .ok (-t, s')
      ∧ s'.length = s.length
      ∧ (∀ i, i < s.length / 2 → s'.getD i 0 = s.getD i 0)
      ∧ (∀ i, s.length / 2 ≤ i → s'.getD i 0 = -(s.getD i 0))
      ∧ TrsOde.reverse (-t) s' = .ok (t, s) := by
  refine ⟨s.mapIdx fun i x => if s.length / 2 ≤ i then -x else x, ?_, ?_, ?_, ?_, ?_⟩
  · unfold TrsOde.reverse
    rw [if_neg (by omega)]
  · exact List.length_mapIdx
  · intro i hi
    rw [getD_mapIdx_zero _ _ _ (by split <;> simp), if_neg (by omega)]
  · intro i hi
    rw [getD_mapIdx_zero _ _ _ (by split <;> simp), if_pos hi]
  · unfold TrsOde.reverse
    rw [if_neg (by simpa [List.length_mapIdx] using h)]
    rw [neg_neg]
    have hlen : ((s.mapIdx fun i x => if s.length / 2 ≤ i then -x else x).mapIdx
        fun i x =>
          if (s.mapIdx fun i x => if s.length / 2 ≤ i then -x else x).length / 2 ≤ i
          then -x else x).length = s.length := by
      simp [List.length_mapIdx]
    have : ((s.mapIdx fun i x => if s.length / 2 ≤ i then -x else x).mapIdx
        fun i x =>
          if (s.mapIdx fun i x => if s.length / 2 ≤ i then -x else x).length / 2 ≤ i
          then -x else x) = s := by
      refine List.ext_getElem hlen fun i h1 h2 => ?_
      have hi2 : i < (s.mapIdx fun i x => if s.length / 2 ≤ i then -x else x).length := by
        simpa [List.length_mapIdx] using h2
      rw [getElem_mapIdx_eq _ _ _ hi2 h1, getElem_mapIdx_eq _ _ _ h2 hi2]
      simp only [List.length_mapIdx]
      split <;> simp
    rw [this]

/-- Witness for C10 at `t = 1`, `S = [2, 3]`. -/
theorem C10_reverse_involution_witness :
    ∃ s', TrsOde.reverse 1 ([2, 3] : List ℚ) = .ok (-1, s')
      ∧ s'.length = ([2, 3] : List ℚ).length
      ∧ (∀ i, i < ([2, 3] : List ℚ).length / 2 → s'.getD i 0 = ([2, 3] : List ℚ).getD i 0)
      ∧ (∀ i, ([2, 3] : List ℚ).length / 2 ≤ i → s'.getD i 0 = -(([2, 3] : List ℚ).getD i 0))
      ∧ TrsOde.reverse (-1) s' = .ok (1, [2, 3]) :=
  C10_reverse_involution 1 [2, 3] (by decide)

/-! ### Claim C8 -/

/-- C8 counterexample: `integrate_to` does not always snap `t` to `t_target` on
success.  With `t = 0` and `t_target = 2⁻⁴⁰` (non-zero, but within the
`|t_target − t| < 1e-10` dead band) the call returns `Ok` immediately and
leaves `t = 0 ≠ t_target`. -/
theorem C8_deadband_counterexample :
    TrsOde.integrateTo (fun _ _ => [0, 0]) (1/100) 0 [1, 0] (some (1/2^40))
      = .ok (0, [1, 0])
    ∧ (0 : ℚ) ≠ 1/2^40 := by
  constructor
  · unfold TrsOde.integrateTo
    dsimp only
    rw [if_pos (by rw [sub_zero, abs_of_pos (by positivity)]; norm_num)]
  · norm_num

/-- C8 as amended: `integrate_to` rejects non-finite targets with
`InvalidParameter`; outside the dead band it takes
`n = ⌈|t_target − t|/dt⌉` steps and rejects `n > 10⁹`; on success it snaps `t`
exactly to `t_target` UNLESS `|t_target − t| < 1e-10`, in which case it returns
success immediately with `t` and `S` unchanged. -/
theorem C8_integrate_to_amended (force : TrsOde.Force) (dt t : ℚ) (s : List ℚ) :
    (TrsOde.integrateTo force dt t s none = .error .invalidParameter)
    ∧ (∀ tgt t' s', TrsOde.integrateTo force dt t s (some tgt) = .ok (t', s') →
        (|tgt - t| < 1/10000000000 ∧ t' = t ∧ s' = s) ∨ t' = tgt)
    ∧ (∀ tgt, ¬ |tgt - t| < 1/10000000000 →
        1000000000 < (⌈|tgt - t| / dt⌉).toNat →
        TrsOde.integrateTo force dt t s (some tgt) = .error .invalidParameter) := by
  refine ⟨rfl, ?_, ?_⟩
  · intro tgt t' s' h
    simp only [TrsOde.integrateTo] at h
    split at h
    case isTrue hc =>
      cases h
      exact Or.inl ⟨hc, rfl, rfl⟩
    case isFalse hc =>
      split at h
      · exact absurd h (by simp)
      · split at h
        · exact absurd h (by simp)
        · cases h
          exact Or.inr rfl
  · intro tgt h1 h2
    simp only [TrsOde.integrateTo]
    rw [if_neg h1, if_pos h2]

/-- Witness for C8's amended claim: a successful non-dead-band call
(`t = 0`, `t_target = 1/10`, `dt = 1/2`, one step) ends with `t = t_target`. -/
theorem C8_integrate_to_amended_witness :
    ((|((1:ℚ)/10) - 0| < 1/10000000000 ∧ ((1:ℚ)/10) = 0 ∧ ([1, 0] : List ℚ) = [1, 0])
      ∨ ((1:ℚ)/10) = (1:ℚ)/10) :=
  (C8_integrate_to_amended (fun _ _ => [0, 0]) (1/2) 0 [1, 0]).2.1 (1/10) (1/10) [1, 0]
    (by
      unfold TrsOde.integrateTo
      dsimp only
      rw [if_neg (by rw [sub_zero, abs_of_pos (by norm_num : (0:ℚ) < 1/10)]; norm_num)]
      rw [show (⌈|((1:ℚ)/10) - 0| / (1/2)⌉).toNat = 1 from by
        rw [show |((1:ℚ)/10) - 0| = 1/10 by
          rw [sub_zero, abs_of_pos (by norm_num : (0:ℚ) < 1/10)]]
        norm_num
        rw [show ⌈(1:ℚ)/5⌉ = 1 from by rw [Int.ceil_eq_iff]; constructor <;> norm_num]
        rfl]
      rw [if_neg (by norm_num)]
      rw [if_pos (by norm_num : (0:ℚ) < 1/10)]
      norm_num [TrsOde.integrate, TrsOde.integrateGo, TrsOde.stepSymplectic,
        TrsOde.stepVelocityVerlet])

/-! ### ψ-trajectory archive: recorder side (psi_recorder.rs)

Byte buffers are `List ℕ`.  The writer pieces below produce exactly the bytes
`PsiArchiveWriter` emits: `start` writes the 5-byte magic, version `0x0001` LE,
the `u64` LE start timestamp and the CRC-32 of those 14 bytes; `write_chunk`
writes `tag | LEB128(len) | payload | CRC32(payload)`; `finish` appends the end
marker `0xFF, LEB128(0)`.  The delta encoder state mirrors `DeltaEncoder`; the
amplitude/emotion deltas are the plain `i16` subtraction of the source
(wrapping, as compiled in release mode). -/

namespace Psi

/-- The magic `ΨARC` in UTF-8: `CE A8 41 52 43` (5 bytes). -/
def magicBytes : List ℕ := [0xCE, 0xA8, 0x41, 0x52, 0x43]

/-- Bytes written by `PsiArchiveWriter::start` (psi_recorder.rs:307-345). -/
def writerHeader (startTimeMs : ℕ) : List ℕ :=
  magicBytes ++ [1, 0] ++ le64 startTimeMs
    ++ le32 (crc32 (magicBytes ++ [1, 0] ++ le64 startTimeMs))

/-- Bytes written by `PsiArchiveWriter::write_chunk` (psi_recorder.rs:348-378). -/
def writeChunk (bandType : ℕ) (isKeyframe : Bool) (data : List ℕ) : List ℕ :=
  (if isKeyframe then bandType ||| 0x80 else bandType)
    :: leb128 data.length ++ data ++ le32 (crc32 data)

/-- End-of-stream marker written by `finish`: tag `0xFF`, `LEB128(0)`. -/
def endMarker : List ℕ := [0xFF, 0]

/-- `DeltaEncoder` state: the "last" integer vectors. -/
structure EncState where
  lastPhases : List ℤ
  lastAmps : List ℤ
  lastEmotions : List ℤ
deriving DecidableEq

/-- The fields of `FrameData` that reach the wire for the micro band. -/
structure FrameData where
  isKeyframe : Bool
  phases : List ℤ
  amplitudes : List ℤ
  emotions : List ℤ

/-- Serialize a vector of `i16` values little-endian, element by element. -/
def i16ListBytes (l : List ℤ) : List ℕ := (l.map i16ToLeBytes).flatten

/-- `PsiRecorder::process_frame` (psi_recorder.rs:586-747), micro band: a
keyframe writes the raw values and resets the encoder's "last" vectors; a
delta frame writes `encode_phase_delta` for phases and plain `i16`
subtraction for amplitudes/emotions, and the encoder's "last" vectors become
the frame's values.  Payload layout: phases, then amplitudes, then emotions. -/
def processFrame (st : EncState) (f : FrameData) : List ℕ × EncState :=
  if f.isKeyframe then
    (writeChunk 1 true
      (i16ListBytes f.phases ++ i16ListBytes f.amplitudes ++ i16ListBytes f.emotions),
     ⟨f.phases, f.amplitudes, f.emotions⟩)
  else
    (writeChunk 1 false
      (i16ListBytes (List.zipWith encodePhaseDelta st.lastPhases f.phases)
        ++ i16ListBytes (List.zipWith (fun last a => i16Cast (a - last)) st.lastAmps f.amplitudes)
        ++ i16ListBytes (List.zipWith (fun last e => i16Cast (e - last)) st.lastEmotions f.emotions)),
     ⟨f.phases, f.amplitudes, f.emotions⟩)

/-- Process a frame sequence, concatenating the emitted chunk bytes. -/
def processFrames (st : EncState) : List FrameData → List ℕ × EncState
  | [] => ([], st)
  | f :: fs =>
    let r := processFrame st f
    let rest := processFrames r.2 fs
    (r.1 ++ rest.1, rest.2)

/-- A complete archive as the recorder's writer thread produces it:
header, chunk stream, end marker. -/
def recorderArchive (startTimeMs : ℕ) (st : EncState) (frames : List FrameData) :
    List ℕ :=
  writerHeader startTimeMs ++ (processFrames st frames).1 ++ endMarker

/-! ### ψ-trajectory archive: reader side (psi_reader.rs)

`ReaderError`'s message strings are dropped; `.panicked` models a Rust panic
(out-of-bounds index or slice), which the source's error enum cannot
represent; `.outOfFuel` is the unreachable exhaustion case of the structural
fuel used for the source's `while` loop (the scan advances its offset by at
least 6 bytes per iteration, so `bytes.length + 1` iterations always
suffice). -/

/-- Reader failure kinds. -/
inductive RFail where
  | invalidFormat : RFail
  | seekError : RFail
  | panicked : RFail
  | outOfFuel : RFail
deriving DecidableEq

/-- Checked byte access: Rust `bytes[i]`, panicking when out of bounds. -/
def byteAt (bytes : List ℕ) (i : ℕ) : Except RFail ℕ :=
  if h : i < bytes.length then .ok bytes[i] else .error .panicked

/-- Rust slice `&bytes[off..off+n]`, panicking when out of bounds. -/
def sliceRead (bytes : List ℕ) (off n : ℕ) : Except RFail (List ℕ) :=
  if off + n ≤ bytes.length then .ok ((bytes.drop off).take n) else .error .panicked

/-- Little-endian value of a byte list. -/
def leVal (l : List ℕ) : ℕ := l.foldr (fun b acc => b + 256 * acc) 0

/-- Parsed `ArchiveHeader`. -/
structure ArchiveHeader where
  version : ℕ
  startTimestampMs : ℕ
  headerCrc : ℕ
deriving DecidableEq

/-- `PsiArchiveReader::read_header` (psi_reader.rs:293-323).  The source
requires only `len ≥ 16`, compares the 4-byte slice `mmap[0..4]` against the
5-byte constant `b"\xCE\xA8ARC"` (slices of different lengths are never equal
in Rust), parses the version at bytes 4..6, the timestamp at 6..14 and the CRC
at 14..18, and never verifies the CRC ("In a full implementation, we would
verify the CRC32 here"). -/
def readHeader (bytes : List ℕ) : Except RFail ArchiveHeader :=
  if bytes.length < 16 then .error .invalidFormat
  else if bytes.take 4 ≠ magicBytes then .error .invalidFormat
  else
    match sliceRead bytes 6 8 with
    | .error e => .error e
    | .ok tsBytes =>
      match sliceRead bytes 14 4 with
      | .error e => .error e
      | .ok crcBytes =>
        .ok ⟨bytes.getD 4 0 + 256 * bytes.getD 5 0, leVal tsBytes, leVal crcBytes⟩

/-- Chunk descriptor recorded by the scan (the derived `timestamp_ms` is
metadata only and plays no part in the integer-level frame decoding modelled
here, so it is omitted). -/
structure ChunkDescriptor where
  offset : ℕ
  chunkType : ℕ
  isKeyframe : Bool
  dataSize : ℕ
  frameIndex : ℕ
deriving DecidableEq

/-- `read_leb128` (psi_reader.rs:391-419).  The shift check bounds the loop at
5 iterations, so the structural fuel of 6 supplied by `readLeb128` is never
exhausted.  Returns (value, bytes_read). -/
def readLeb128Go (bytes : List ℕ) : ℕ → ℕ → ℕ → ℕ → ℕ → Except RFail (ℕ × ℕ)
  | _, _, _, _, 0 => .error .outOfFuel
  | offset, result, shift, bytesRead, fuel + 1 =>
    if offset ≥ bytes.length then .error .invalidFormat
    else
      let b := bytes.getD offset 0
      let result1 := result ||| ((b &&& 0x7F) <<< shift)
      if b &&& 0x80 = 0 then .ok (result1, bytesRead + 1)
      else if shift + 7 > 28 then .error .invalidFormat
      else readLeb128Go bytes (offset + 1) result1 (shift + 7) (bytesRead + 1) fuel

/-- LEB128 decode at an offset. -/
def readLeb128 (bytes : List ℕ) (offset : ℕ) : Except RFail (ℕ × ℕ) :=
  readLeb128Go bytes offset 0 0 0 6

/-- `scan_chunks` loop body (psi_reader.rs:326-388): starting at offset 18,
repeatedly read tag, stop at `0xFF`, split band/keyframe-flag, read the
LEB128 length, bounds-check the payload, record the chunk, and — exactly as
the source — increment `frame_index` only for visual *keyframe* chunks; then
skip payload plus 4 CRC bytes. -/
def scanLoop (bytes : List ℕ) :
    ℕ → ℕ → ℕ → List ChunkDescriptor → List ChunkDescriptor →
    Except RFail (List ChunkDescriptor × List ChunkDescriptor)
  | 0, _, _, _, _ => .error .outOfFuel
  | fuel + 1, offset, frameIndex, allChunks, keyframeChunks =>
    if offset < bytes.length then
      let tag := bytes.getD offset 0
      if tag = 0xFF then .ok (allChunks, keyframeChunks)
      else
        let chunkType := tag &&& 0x7F
        let isKeyframe := tag &&& 0x80 != 0
        match readLeb128 bytes (offset + 1) with
        | .error e => .error e
        | .ok (length, bytesRead) =>
          let payloadOffset := offset + 1 + bytesRead
          if payloadOffset + length > bytes.length then .error .invalidFormat
          else
            let c : ChunkDescriptor := ⟨payloadOffset, chunkType, isKeyframe, length, frameIndex⟩
            let isVisualKeyframe :=
              isKeyframe && (chunkType == 1 || chunkType == 2 || chunkType == 3)
            scanLoop bytes fuel (payloadOffset + length + 4)
              (if isVisualKeyframe then frameIndex + 1 else frameIndex)
              (allChunks ++ [c])
              (if isVisualKeyframe then keyframeChunks ++ [c] else keyframeChunks)
    else .ok (allChunks, keyframeChunks)

/-- `scan_chunks`: returns (all_chunks, keyframe_chunks). -/
def scanChunks (bytes : List ℕ) :
    Except RFail (List ChunkDescriptor × List ChunkDescriptor) :=
  scanLoop bytes (bytes.length + 1) 18 0 [] []

/-- `PsiArchiveReader::open` (psi_reader.rs:268-290): read and verify the
header, then scan the chunk index (memory-mapping and duration bookkeeping
have no byte-level effect). -/
def openArchive (bytes : List ℕ) :
    Except RFail (List ChunkDescriptor × List ChunkDescriptor) :=
  match readHeader bytes with
  | .error e => .error e
  | .ok _ => scanChunks bytes

/-- `find_keyframe_at` (psi_reader.rs:430-434). -/
def findKeyframeAt (keys : List ChunkDescriptor) (fi : ℕ) : Option ChunkDescriptor :=
  keys.find? (fun c => c.frameIndex == fi)

/-- `find_keyframe_before` (psi_reader.rs:422-427). -/
def findKeyframeBefore (keys : List ChunkDescriptor) (fi : ℕ) : Option ChunkDescriptor :=
  keys.reverse.find? (fun c => decide (c.frameIndex ≤ fi))

/-- `decompress_chunk` (psi_reader.rs:442-453): return the payload slice
`mmap[offset .. offset + data_size]` as-is — no CRC check, no decompression. -/
def decompressChunk (bytes : List ℕ) (c : ChunkDescriptor) : Except RFail (List ℕ) :=
  if c.offset + c.dataSize ≤ bytes.length then .ok ((bytes.drop c.offset).take c.dataSize)
  else .error .panicked

/-- `i16::from_le_bytes` on two indexed bytes (panics out of bounds). -/
def readI16At (data : List ℕ) (off : ℕ) : Except RFail ℤ :=
  match byteAt data off with
  | .error e => .error e
  | .ok b0 =>
    match byteAt data (off + 1) with
    | .error e => .error e
    | .ok b1 => .ok (leBytesToI16 b0 b1)

/-- Read `count` little-endian `i16` values at offsets `offFn 0, offFn 1, …`. -/
def readI16s (data : List ℕ) (offFn : ℕ → ℕ) (count : ℕ) : Except RFail (List ℤ) :=
  (List.range count).mapM (fun i => readI16At data (offFn i))

/-- The integer-level content of `decode_keyframe` (psi_reader.rs:585-628):
payload size check, then extract phases at `i*2`, amplitudes at `(osc+i)*2`,
emotions at `(osc*2+i)*2`.  (The subsequent dequantisation to `f32` and, on
the delta path of `read_frame`, the requantisation back to `i16`, are exact
inverses under the ideal real-arithmetic reading of this model, so the `i16`
vectors are the observable content.) -/
def decodeKeyframeI16 (bytes : List ℕ) (osc emo : ℕ) (c : ChunkDescriptor) :
    Except RFail (List ℤ × List ℤ × List ℤ) :=
  match decompressChunk bytes c with
  | .error e => .error e
  | .ok data =>
    if data.length < osc * 2 + osc * 2 + emo * 2 then .error .invalidFormat
    else
      match readI16s data (fun i => i * 2) osc with
      | .error e => .error e
      | .ok phases =>
        match readI16s data (fun i => (osc + i) * 2) osc with
        | .error e => .error e
        | .ok amps =>
          match readI16s data (fun i => (osc * 2 + i) * 2) emo with
          | .error e => .error e
          | .ok emos => .ok (phases, amps, emos)

/-- The delta-walk of `read_frame` (psi_reader.rs:519-563): for each following
chunk, skip non-micro bands, stop past the target index, otherwise decode the
payload (size check `(osc + emo) * 2`, as in the source) and apply phase
deltas with `wrapping_add` and amplitude/emotion deltas with
`saturating_add`. -/
def walkDeltas (bytes : List ℕ) (osc emo fi : ℕ) :
    List ChunkDescriptor → List ℤ × List ℤ × List ℤ →
    Except RFail (List ℤ × List ℤ × List ℤ)
  | [], st => .ok st
  | c :: rest, st =>
    if c.chunkType ≠ 1 then walkDeltas bytes osc emo fi rest st
    else if fi < c.frameIndex then .ok st
    else
      match decompressChunk bytes c with
      | .error e => .error e
      | .ok data =>
        if data.length < (osc + emo) * 2 then .error .invalidFormat
        else
          match readI16s data (fun i => i * 2) osc with
          | .error e => .error e
          | .ok pd =>
            match readI16s data (fun i => (osc + i) * 2) osc with
            | .error e => .error e
            | .ok ad =>
              match readI16s data (fun i => (osc * 2 + i) * 2) emo with
              | .error e => .error e
              | .ok ed =>
                walkDeltas bytes osc emo fi rest
                  (List.zipWith applyPhaseDelta st.1 pd,
                   List.zipWith i16SatAdd st.2.1 ad,
                   List.zipWith i16SatAdd st.2.2 ed)

/-- `read_frame` (psi_reader.rs:456-582) at the `i16` level.  The keyframe
branch is `decode_keyframe` (the keyframe cache only short-circuits repeated
work and cannot change a first call's result, so it is not modelled);
otherwise locate the last keyframe at-or-before `fi`, decode it (the source
does this through a recursive `read_frame` call, which for a keyframe index
takes the keyframe branch), seed the delta decoder, locate the keyframe's
chunk position in `all_chunks` by its `frame_index`, and walk the deltas. -/
def readFrameI16 (bytes : List ℕ) (allChunks keys : List ChunkDescriptor)
    (osc emo fi : ℕ) : Except RFail (List ℤ × List ℤ × List ℤ) :=
  match findKeyframeAt keys fi with
  | some kc => decodeKeyframeI16 bytes osc emo kc
  | none =>
    match findKeyframeBefore keys fi with
    | none => .error .seekError
    | some kc =>
      match decodeKeyframeI16 bytes osc emo kc with
      | .error e => .error e
      | .ok st =>
        match allChunks.findIdx? (fun c => c.frameIndex == kc.frameIndex) with
        | none => .error .seekError
        | some start => walkDeltas bytes osc emo fi (allChunks.drop (start + 1)) st

/-- Scan an archive's chunk stream and read frame `fi` at the `i16` level
(the reader's open-then-read sequence, minus the header gate — see
`openArchive` for the gated version). -/
def readFrameOnArchive (bytes : List ℕ) (osc emo fi : ℕ) :
    Except RFail (List ℤ × List ℤ × List ℤ) :=
  match scanChunks bytes with
  | .error e => .error e
  | .ok r => readFrameI16 bytes r.1 r.2 osc emo fi

end Psi

/-! ### Snapshot codec (alan_core/src/snapshot/mod.rs)

`StateSnapshot::from_bytes` only; the `f32` fields are kept as their raw
little-endian 32-bit patterns (`ℕ`), since the claims below concern only the
error/panic behaviour, which is independent of float semantics. -/

namespace Snap

/-- `SnapshotError` kinds (payloads dropped), plus `.panicked` for a Rust
index-out-of-bounds panic, which the source's error enum cannot represent. -/
inductive SnapFail where
  | panicked : SnapFail
  | invalidFormat : SnapFail
  | incompatibleVersion : SnapFail
  | schemaMismatch : SnapFail
  | unsupportedEndianness : SnapFail
deriving DecidableEq

/-- Checked byte access: Rust `bytes[i]`, panicking when out of bounds. -/
def byteAt (bytes : List ℕ) (i : ℕ) : Except SnapFail ℕ :=
  if h : i < bytes.length then .ok bytes[i] else .error .panicked

/-- Four indexed bytes as a little-endian 32-bit value
(`f32::from_le_bytes([bytes[i], bytes[i+1], bytes[i+2], bytes[i+3]])`,
panicking when any index is out of bounds). -/
def read32 (bytes : List ℕ) (off : ℕ) : Except SnapFail ℕ :=
  match byteAt bytes off with
  | .error e => .error e
  | .ok b0 =>
    match byteAt bytes (off + 1) with
    | .error e => .error e
    | .ok b1 =>
      match byteAt bytes (off + 2) with
      | .error e => .error e
      | .ok b2 =>
        match byteAt bytes (off + 3) with
        | .error e => .error e
        | .ok b3 => .ok (b0 + 256 * b1 + 65536 * b2 + 16777216 * b3)

/-- `StateSnapshot` with floats as raw bit patterns. -/
structure StateSnapshot where
  theta : List ℕ
  pTheta : List ℕ
  sigma : List (ℕ × ℕ × ℕ)
  pSigma : List (ℕ × ℕ × ℕ)
  dtPhase : ℕ
  dtSpin : ℕ
  lambda : Option ℕ
deriving DecidableEq

/-- Array section of `from_bytes` (snapshot/mod.rs:328-400): the expected-size
check `bytes.len() < offset + n*4*(2+3+3)`, then `θ`, `p_θ`, `σ` (3 components)
and `p_σ` (3 components), all little-endian 32-bit reads. -/
def fromBytesArrays (bytes : List ℕ) (offset n dtPhase dtSpin : ℕ)
    (lambda : Option ℕ) : Except SnapFail StateSnapshot :=
  if bytes.length < offset + n * 4 * (2 + 3 + 3) then .error .invalidFormat
  else
    match (List.range n).mapM (fun i => read32 bytes (offset + i * 4)) with
    | .error e => .error e
    | .ok theta =>
      match (List.range n).mapM (fun i => read32 bytes (offset + n * 4 + i * 4)) with
      | .error e => .error e
      | .ok pTheta =>
        match (List.range n).mapM (fun i =>
            (match read32 bytes (offset + n * 8 + i * 12),
                read32 bytes (offset + n * 8 + i * 12 + 4),
                read32 bytes (offset + n * 8 + i * 12 + 8) with
             | .ok x, .ok y, .ok z => .ok (x, y, z)
             | .error e, _, _ => .error e
             | _, .error e, _ => .error e
             | _, _, .error e => .error e : Except SnapFail (ℕ × ℕ × ℕ))) with
        | .error e => .error e
        | .ok sigma =>
          match (List.range n).mapM (fun i =>
              (match read32 bytes (offset + n * 20 + i * 12),
                  read32 bytes (offset + n * 20 + i * 12 + 4),
                  read32 bytes (offset + n * 20 + i * 12 + 8) with
               | .ok x, .ok y, .ok z => .ok (x, y, z)
               | .error e, _, _ => .error e
               | _, .error e, _ => .error e
               | _, _, .error e => .error e : Except SnapFail (ℕ × ℕ × ℕ))) with
          | .error e => .error e
          | .ok pSigma => .ok ⟨theta, pTheta, sigma, pSigma, dtPhase, dtSpin, lambda⟩

/-- `StateSnapshot::from_bytes` (snapshot/mod.rs:263-400).  The only size guard
before the array section is `bytes.len() < 12`; the magic `ALSN`, version
`0x0200`, schema CRC `0x8A7B4C3D` and endian byte are checked at fixed offsets
(all within the first 11 bytes), after which `dt_phase` reads `bytes[11..15]`,
`dt_spin` `bytes[15..19]`, the lambda-presence byte `bytes[19]` and the
optional lambda plus the count by direct indexing — none of which is covered by
the guard. -/
def fromBytes (bytes : List ℕ) : Except SnapFail StateSnapshot :=
  if bytes.length < 12 then .error .invalidFormat
  else if bytes.take 4 ≠ [0x41, 0x4C, 0x53, 0x4E] then .error .invalidFormat
  else if bytes.getD 4 0 + 256 * bytes.getD 5 0 ≠ 0x0200 then .error .incompatibleVersion
  else if bytes.getD 6 0 + 256 * bytes.getD 7 0 + 65536 * bytes.getD 8 0
      + 16777216 * bytes.getD 9 0 ≠ 0x8A7B4C3D then .error .schemaMismatch
  else if bytes.getD 10 0 ≠ 0 then .error .unsupportedEndianness
  else
    match read32 bytes 11 with
    | .error e => .error e
    | .ok dtPhase =>
      match read32 bytes 15 with
      | .error e => .error e
      | .ok dtSpin =>
        match byteAt bytes 19 with
        | .error e => .error e
        | .ok hasLambda =>
          if hasLambda ≠ 0 then
            match read32 bytes 20 with
            | .error e => .error e
            | .ok lam =>
              match read32 bytes 24 with
              | .error e => .error e
              | .ok n => fromBytesArrays bytes 28 n dtPhase dtSpin (some lam)
          else
            match read32 bytes 20 with
            | .error e => .error e
            | .ok n => fromBytesArrays bytes 24 n dtPhase dtSpin none

end Snap

/-! ### Claim C5 -/

/-- C5: `read_header` rejects EVERY byte buffer — including the very headers
`PsiArchiveWriter::start` writes — because it compares the 4-byte slice
`mmap[0..4]` against the 5-byte magic constant (never equal), after an
undersized-length check; the header CRC is never verified at all. -/
theorem C5_read_header_rejects_all (bytes : List ℕ) :
    Psi.readHeader bytes = .error .invalidFormat := by
  unfold Psi.readHeader
  split
  · rfl
  · rw [if_pos ?_]
    intro hEq
    have hlen := congrArg List.length hEq
    simp [Psi.magicBytes, List.length_take] at hlen
    omega

/-! ### Claim C4 -/

/-- A 4-frame micro-band capture with keyframe interval 2 (keyframes at capture
indices 0 and 2), one oscillator and one emotion dimension. -/
def C4frame0 : Psi.FrameData := ⟨true, [10], [20], [30]⟩

/-- Capture frame 1 (delta frame). -/
def C4frame1 : Psi.FrameData := ⟨false, [11], [21], [31]⟩

/-- Capture frame 2 (keyframe). -/
def C4frame2 : Psi.FrameData := ⟨true, [12], [22], [32]⟩

/-- Capture frame 3 (delta frame). -/
def C4frame3 : Psi.FrameData := ⟨false, [13], [23], [33]⟩

/-- Fresh `DeltaEncoder` state (`vec![0; n]` everywhere). -/
def C4encInit : Psi.EncState := ⟨[0], [0], [0]⟩

/-- The four captured frames in order. -/
def C4frames : List Psi.FrameData := [C4frame0, C4frame1, C4frame2, C4frame3]

/-- The archive exactly as the recorder produces it (19-byte header, four
chunks, end marker), with start timestamp 0. -/
def C4recorderArchive : List ℕ := Psi.recorderArchive 0 C4encInit C4frames

/-- The same chunk stream placed at the scan's hard-coded start offset 18
(the recorder's header is 19 bytes, so on genuine recorder output even the
scan would misparse; this crafted layout isolates the frame-indexing bug). -/
def C4craftedArchive : List ℕ :=
  List.replicate 18 0 ++ (Psi.processFrames C4encInit C4frames).1 ++ Psi.endMarker

/-- C4: replay does not reproduce the encoder's `i16` state.  (a) `open`
rejects every recorder-produced archive outright (header bug), so `read_frame`
can never return any frame from one; (b) even scanning the chunk stream
directly, `scan_chunks` gives every chunk the index of the *next* keyframe
(it increments `frame_index` only at keyframes), so `read_frame(1)` finds a
"keyframe at 1" — which is capture frame 2 — and returns `([12], [22], [32])`;
(c) the encoder's state after emitting frame 1 was `([11], [21], [31])`, which
differs. -/
theorem C4_reader_frame_indexing_bug :
    Psi.openArchive C4recorderArchive = .error .invalidFormat
    ∧ Psi.readFrameOnArchive C4craftedArchive 1 1 1 = .ok ([12], [22], [32])
    ∧ (Psi.processFrames C4encInit [C4frame0, C4frame1]).2
        = (⟨[11], [21], [31]⟩ : Psi.EncState)
    ∧ (([12], [22], [32]) : List ℤ × List ℤ × List ℤ) ≠ ([11], [21], [31]) := by
  refine ⟨?_, by decide, by decide, by decide⟩
  have h := C5_read_header_rejects_all C4recorderArchive
  unfold Psi.openArchive
  decide

/-! ### Claim C6 -/

/-- Original chunk payload. -/
def C6payload : List ℕ := [1, 2, 3, 4, 5, 6]

/-- The payload with its first byte corrupted (`1 ↦ 0`). -/
def C6corruptPayload : List ℕ := [0, 2, 3, 4, 5, 6]

/-- An archive whose single chunk carries the corrupted payload but still the
CRC-32 of the original payload, at the scan's start offset. -/
def C6corruptedArchive : List ℕ :=
  List.replicate 18 0
    ++ (1 :: leb128 6 ++ C6corruptPayload ++ le32 (crc32 C6payload))
    ++ Psi.endMarker

/-- The chunk descriptor the scan records for that chunk. -/
def C6chunk : Psi.ChunkDescriptor := ⟨20, 1, false, 6, 0⟩

/-- C6 counterexample: the reader scans the corrupted chunk, and
`decompress_chunk` — the reader's access path to chunk data — returns the
corrupted payload with `Ok`, although the stored CRC (the 4 bytes after the
payload) is the original payload's CRC and does not match the data. -/
theorem C6_crc_not_checked_counterexample :
    Psi.scanChunks C6corruptedArchive = .ok ([C6chunk], [])
    ∧ Psi.decompressChunk C6corruptedArchive C6chunk = .ok C6corruptPayload
    ∧ (C6corruptedArchive.drop 26).take 4 = le32 (crc32 C6payload)
    ∧ crc32 C6corruptPayload ≠ crc32 C6payload := by
  refine ⟨by decide, by decide, by decide, by decide⟩

/-- C6 as amended: the reader performs no CRC verification on chunk access —
`decompress_chunk` returns the stored payload bytes unchanged for every
in-bounds chunk, whatever the stored CRC says. -/
theorem C6_decompress_returns_payload (bytes : List ℕ) (c : Psi.ChunkDescriptor)
    (h : c.offset + c.dataSize ≤ bytes.length) :
    Psi.decompressChunk bytes c = .ok ((bytes.drop c.offset).take c.dataSize) := by
  unfold Psi.decompressChunk
  rw [if_pos h]

/-- Witness for C6's amended claim at the corrupted-chunk input. -/
theorem C6_decompress_returns_payload_witness :
    Psi.decompressChunk C6corruptedArchive C6chunk
      = .ok ((C6corruptedArchive.drop C6chunk.offset).take C6chunk.dataSize) :=
  C6_decompress_returns_payload C6corruptedArchive C6chunk (by decide)

/-! ### Claim C7 -/

/-- C7: `from_bytes` does NOT reject every undersized input with an error: a
12-byte buffer that passes the magic/version/CRC/endianness checks panics on
the out-of-bounds read `bytes[12]` for `dt_phase` (the only size guard before
the array section is `len < 12`).  Inputs shorter than 12 bytes are rejected
with `InvalidFormat`, as the claim says. -/
theorem C7_from_bytes_panics_on_undersized :
    Snap.fromBytes [0x41, 0x4C, 0x53, 0x4E, 0x00, 0x02, 0x3D, 0x4C, 0x7B, 0x8A, 0x00, 0x00]
      = .error .panicked
    ∧ Snap.fromBytes (List.replicate 11 0) = .error .invalidFormat := by
  refine ⟨by decide, by decide⟩
